import Mathlib

/-!
Shallow embedding of the SCP detector module (scp-detector.js): identifier
normalizer, page classifier, link/inline scanners, deduplicator, and the
detector controller state machine, together with theorems settling the
frozen claims about them.
-/

namespace SCPD

/-! ## Character and string utilities mirroring the JavaScript runtime -/

/-- Code points of the JavaScript whitespace class used by trim and the
regex space class. -/
def jsSpaceCodes : List Nat :=
  [9, 10, 11, 12, 13, 32, 160, 5760, 8192, 8193, 8194, 8195, 8196, 8197,
   8198, 8199, 8200, 8201, 8202, 8232, 8233, 8239, 8287, 12288, 65279]

def isJsSpace (c : Char) : Bool := jsSpaceCodes.contains c.toNat

def lowerChar (c : Char) : Char :=
  if 'A' ≤ c ∧ c ≤ 'Z' then Char.ofNat (c.toNat + 32) else c

def upperChar (c : Char) : Char :=
  if 'a' ≤ c ∧ c ≤ 'z' then Char.ofNat (c.toNat - 32) else c

/-- Model of String.prototype.toLowerCase restricted to ASCII letters. -/
def toLowerStr (s : String) : String := String.mk (s.data.map lowerChar)

/-- Model of String.prototype.toUpperCase restricted to ASCII letters. -/
def toUpperStr (s : String) : String := String.mk (s.data.map upperChar)

/-- Model of String.prototype.trim. -/
def trimJs (s : String) : String :=
  String.mk (((s.data.dropWhile isJsSpace).reverse.dropWhile isJsSpace).reverse)

/-- The DASH_CLASS constant: unicode hyphen variants plus the ASCII hyphen. -/
def dashChars : List Char :=
  ['‐', '‑', '‒', '–', '—', '―', '-']

/-- unifyDashes: replace every dash variant by the ASCII hyphen. -/
def unifyDashes (s : String) : String :=
  String.mk (s.data.map (fun c => if dashChars.contains c then '-' else c))

/-- One pass of the global replacement of whitespace-hyphen-whitespace runs
by a single hyphen, as in s.replace of the hyphen-spacing pattern. The fuel
argument bounds recursion; each step consumes at least one character. -/
def collapseGo : Nat → List Char → List Char
  | 0, l => l
  | _ + 1, [] => []
  | fuel + 1, '-' :: rest => '-' :: collapseGo fuel (rest.dropWhile isJsSpace)
  | fuel + 1, c :: rest =>
    if isJsSpace c then
      match (c :: rest).dropWhile isJsSpace with
      | '-' :: rest2 => '-' :: collapseGo fuel (rest2.dropWhile isJsSpace)
      | _ => c :: collapseGo fuel rest
    else
      c :: collapseGo fuel rest

/-- Normalizes spaces around hyphens, the second rewrite step of
normalizeIdentifier. -/
def collapseHyphenWS (s : String) : String :=
  String.mk (collapseGo s.data.length s.data)

/-! ## Identifier normalizer -/

inductive Kind where
  | scp
  | scp_variant
  | proposal_or_article
deriving DecidableEq, Repr

structure NormResult where
  id : String
  kind : Kind
deriving DecidableEq, Repr

/-- The redaction block character. -/
def blockChar : Char := '█'

def isAsciiAlnum (c : Char) : Bool :=
  c.isDigit || ('a' ≤ c ∧ c ≤ 'z') || ('A' ≤ c ∧ c ≤ 'Z')

/-- JavaScript regex word-class membership. -/
def isWordChar (c : Char) : Bool :=
  c.isDigit || ('a' ≤ c ∧ c ≤ 'z') || ('A' ≤ c ∧ c ≤ 'Z') || c = '_'

/-- A word boundary sits after the previous (word) character when the next
character is absent or not a word character. -/
def boundaryAfter : List Char → Bool
  | [] => true
  | c :: _ => !(isWordChar c)

/-- Head match of the anchored normalizer pattern: case-insensitive SCP
token, optional spaces, optional hyphen, optional spaces, then a numeric
body of one to four digits or the four-block redaction token. Returns the
matched body and the remaining characters. -/
def parseScpHead (l : List Char) : Option (List Char × List Char) :=
  match l with
  | c1 :: c2 :: c3 :: rest =>
    if lowerChar c1 = 's' ∧ lowerChar c2 = 'c' ∧ lowerChar c3 = 'p' then
      let r1 := rest.dropWhile isJsSpace
      let r2 := match r1 with
        | '-' :: r => r
        | r => r
      let r3 := r2.dropWhile isJsSpace
      match r3.takeWhile Char.isDigit with
      | [] =>
        (match r3 with
         | b1 :: b2 :: b3 :: b4 :: rest2 =>
           if b1 = blockChar ∧ b2 = blockChar ∧ b3 = blockChar ∧ b4 = blockChar then
             some ([blockChar, blockChar, blockChar, blockChar], rest2)
           else none
         | _ => none)
      | ds =>
        let base := ds.take 4
        some (base, r3.drop base.length)
    else none
  | _ => none

/-- The optional suffix group: a hyphen followed by a maximal nonempty run
of ASCII alphanumerics. -/
def parseSuffix (l : List Char) : Option (List Char) :=
  match l with
  | '-' :: rest =>
    let run := rest.takeWhile isAsciiAlnum
    if run = [] then none else some run
  | _ => none

/-- base.replace of leading zeros (kept when the body is all zeros). -/
def stripLeadingZeros (ds : List Char) : List Char :=
  match ds.dropWhile (fun c => c = '0') with
  | [] => ['0']
  | r => r

/-- The 001 test applied to the canonical id: optional scp- then 001 and a
word boundary. -/
def check001 (l : List Char) : Bool :=
  match l with
  | '0' :: '0' :: '1' :: rest => boundaryAfter rest
  | _ => false

def starts001 (l : List Char) : Bool :=
  match l with
  | 's' :: 'c' :: 'p' :: '-' :: rest => check001 rest
  | l2 => check001 l2

/-- One alternative of the variant-suffix pattern at the position right
after a hyphen: j, ex, arc or d followed by a word boundary. -/
def variantAt (l : List Char) : Bool :=
  match l with
  | 'j' :: rest => boundaryAfter rest
  | 'e' :: 'x' :: rest => boundaryAfter rest
  | 'a' :: 'r' :: 'c' :: rest => boundaryAfter rest
  | 'd' :: rest => boundaryAfter rest
  | _ => false

def hasVariantSuffix : List Char → Bool
  | [] => false
  | '-' :: rest => variantAt rest || hasVariantSuffix rest
  | _ :: rest => hasVariantSuffix rest

/-- normalizeIdentifier: trim, unify dashes, collapse hyphen spacing, parse
the identifier grammar, strip leading zeros, lowercase the suffix, and
classify the kind (the 001 test first, then the variant-suffix test). -/
def normalizeIdentifier (raw : String) : Option NormResult :=
  if raw = "" then none
  else
    let s := collapseHyphenWS (unifyDashes (trimJs raw))
    match parseScpHead s.data with
    | none => none
    | some (base, rest) =>
      let idCore :=
        if base = [blockChar, blockChar, blockChar, blockChar] then
          "scp-unknown"
        else
          "scp-" ++ String.mk (stripLeadingZeros base)
      let id :=
        match parseSuffix rest with
        | some suf => idCore ++ "-" ++ toLowerStr (String.mk suf)
        | none => idCore
      let kind0 : Kind := if starts001 id.data then .proposal_or_article else .scp
      let kind : Kind := if hasVariantSuffix id.data then .scp_variant else kind0
      some ⟨id, kind⟩

/-! ## Page classifier -/

structure UrlParts where
  hostname : String
  pathname : String
  href : String
deriving DecidableEq, Repr

inductive PageType where
  | scp_article
  | proposal_or_index
  | series
  | hub
  | tale
  | non_scp
  | unknown
deriving DecidableEq, Repr

structure SiteLocale where
  site : String
  locale : String
deriving DecidableEq, Repr

structure PageClassification where
  type : PageType
  site : String
  locale : String
  canonicalUrl : String
  confidence : ℚ
deriving DecidableEq, Repr

/-- The built-in DEFAULT_DOMAIN_MAP table. -/
def defaultDomainMap : List (String × SiteLocale) :=
  [("scp-wiki.wikidot.com", ⟨"scp-wiki", "en"⟩),
   ("www.scp-wiki.wikidot.com", ⟨"scp-wiki", "en"⟩),
   ("scpwiki.com", ⟨"scp-wiki", "en"⟩),
   ("www.scpwiki.com", ⟨"scp-wiki", "en"⟩),
   ("scp-wiki-cn.wikidot.com", ⟨"scp-wiki", "zh-cn"⟩),
   ("scp-ru.wikidot.com", ⟨"scp-wiki", "ru"⟩),
   ("scpko.wikidot.com", ⟨"scp-wiki", "ko"⟩),
   ("scp-th.wikidot.com", ⟨"scp-wiki", "th"⟩),
   ("scp-pl.wikidot.com", ⟨"scp-wiki", "pl"⟩),
   ("scp-jp.wikidot.com", ⟨"scp-wiki", "ja"⟩),
   ("scp-es.com", ⟨"scp-wiki", "es"⟩)]

/-- Site lookup, with the falsy-string fallback of the source lookup. -/
def domainSite (hostname : String) : String :=
  match defaultDomainMap.lookup hostname with
  | some sl => if sl.site = "" then "unknown" else sl.site
  | none => "unknown"

/-- Locale lookup, with the falsy-string fallback of the source lookup. -/
def domainLocale (hostname : String) : String :=
  match defaultDomainMap.lookup hostname with
  | some sl => if sl.locale = "" then "unknown" else sl.locale
  | none => "unknown"

/-- Existence test for the numbered-article path pattern: a slash followed
by an optional scp- token and then a digit (the rest of the pattern is
nullable, so existence reduces to this). -/
def startsDigitOrScpDigit (rest : List Char) : Bool :=
  (match rest with
   | c :: _ => c.isDigit
   | [] => false) ||
  (match rest with
   | 's' :: 'c' :: 'p' :: '-' :: c :: _ => c.isDigit
   | _ => false)

def isSCPPathB : List Char → Bool
  | [] => false
  | '/' :: rest => startsDigitOrScpDigit rest || isSCPPathB rest
  | _ :: rest => isSCPPathB rest

/-- The 001 body with no digit following, for the path test. -/
def check001NoDigit (l : List Char) : Bool :=
  match l with
  | '0' :: '0' :: '1' :: rest =>
    (match rest with
     | c :: _ => !c.isDigit
     | [] => true)
  | _ => false

def scp001After (rest : List Char) : Bool :=
  match rest with
  | 's' :: 'c' :: 'p' :: r =>
    (match r with
     | '-' :: r2 => check001NoDigit r2
     | r2 => check001NoDigit r2)
  | _ => false

def isSCP001B : List Char → Bool
  | [] => false
  | '/' :: rest => scp001After rest || isSCP001B rest
  | _ :: rest => isSCP001B rest

/-- Word-bounded scp-number occurrence starting at this position: scp- then
one to four digits followed by a word boundary. -/
def scpNumAt (l : List Char) : Bool :=
  match l with
  | 's' :: 'c' :: 'p' :: '-' :: rest =>
    let ds := rest.takeWhile Char.isDigit
    decide (1 ≤ ds.length) && decide (ds.length ≤ 4) && boundaryAfter (rest.drop ds.length)
  | _ => false

def titleScpNumGo (prevWord : Bool) : List Char → Bool
  | [] => false
  | c :: rest =>
    (!prevWord && scpNumAt (c :: rest)) || titleScpNumGo (isWordChar c) rest

/-- The word-bounded scp-number pattern applied to the lowercased title. -/
def titleScpNumB (l : List Char) : Bool := titleScpNumGo false l

/-- If l starts with the literal sequence w, return the remainder. -/
def seqAt (w : List Char) (l : List Char) : Option (List Char) :=
  match w, l with
  | [], l2 => some l2
  | _ :: _, [] => none
  | a :: ws, c :: cs => if c = a then seqAt ws cs else none

def wholeWordGo (w : List Char) (prevWord : Bool) : List Char → Bool
  | [] => false
  | c :: rest =>
    (!prevWord &&
      (match seqAt w (c :: rest) with
       | some rem => boundaryAfter rem
       | none => false)) || wholeWordGo w (isWordChar c) rest

/-- Word-bounded literal occurrence, for the series/hub/tale path tests. -/
def wholeWordB (w : String) (l : List Char) : Bool := wholeWordGo w.data false l

/-- Plain substring occurrence, for the hub/tale title tests. -/
def containsSeq (w : List Char) : List Char → Bool
  | [] => (seqAt w []).isSome
  | c :: rest => (seqAt w (c :: rest)).isSome || containsSeq w rest

/-- The series title test: the word series, a space, then at least one
roman-numeral letter. -/
def seriesTitleAt (l : List Char) : Bool :=
  match seqAt "series ".data l with
  | some (c :: _) => c = 'i' || c = 'v' || c = 'x'
  | _ => false

def seriesTitleB : List Char → Bool
  | [] => false
  | c :: rest => seriesTitleAt (c :: rest) || seriesTitleB rest

/-- Lowercased pathname characters seen by the classifier (empty pathname
defaults to a slash). -/
def classifyPath (urlObj : Option UrlParts) : List Char :=
  let url := urlObj.getD ⟨"", "/", ""⟩
  (toLowerStr (if url.pathname = "" then "/" else url.pathname)).data

/-- Lowercased hostname seen by the classifier. -/
def classifyHost (urlObj : Option UrlParts) : String :=
  let url := urlObj.getD ⟨"", "/", ""⟩
  toLowerStr url.hostname

/-- Lowercased title characters seen by the classifier. -/
def classifyTitleChars (documentTitle : Option String) : List Char :=
  (toLowerStr (documentTitle.getD "")).data

/-- classifyPage: site and locale from the built-in domain map, then the
first-match-wins page type heuristic with its literal confidence values. -/
def classifyPage (urlObj : Option UrlParts) (documentTitle : Option String) :
    PageClassification :=
  let url := urlObj.getD ⟨"", "/", ""⟩
  let site := domainSite (classifyHost urlObj)
  let locale := domainLocale (classifyHost urlObj)
  let p := classifyPath urlObj
  let t := classifyTitleChars documentTitle
  let isPath := isSCPPathB p
  if isSCP001B p then
    ⟨.proposal_or_index, site, locale, url.href, mkRat 6 10⟩
  else if isPath || titleScpNumB t then
    ⟨.scp_article, site, locale, url.href, if isPath then mkRat 9 10 else mkRat 6 10⟩
  else if wholeWordB "series" p || seriesTitleB t then
    ⟨.series, site, locale, url.href, mkRat 6 10⟩
  else if wholeWordB "hub" p || containsSeq "hub".data t then
    ⟨.hub, site, locale, url.href, mkRat 5 10⟩
  else if wholeWordB "tale" p || containsSeq "tale".data t then
    ⟨.tale, site, locale, url.href, mkRat 4 10⟩
  else if site = "scp-wiki" then
    ⟨.non_scp, site, locale, url.href, mkRat 3 10⟩
  else
    ⟨.unknown, site, locale, url.href, mkRat 1 10⟩

/-! ## Entities, scanners and the deduplicator -/

inductive EvContext where
  | link
  | inline
deriving DecidableEq, Repr

inductive ConfidenceTier where
  | high
  | medium
  | low
deriving DecidableEq, Repr

structure Entity where
  id : String
  kind : Kind
  context : EvContext
  url : Option String
  displayText : Option String
  confidence : ConfidenceTier
deriving DecidableEq, Repr

/-- The falsy-to-null coercion applied by makeEntity to url and
displayText. -/
def orNullStr (s : String) : Option String := if s = "" then none else some s

def makeEntity (id : String) (kind : Kind) (context : EvContext) (url : String)
    (displayText : String) (confidence : ConfidenceTier) : Entity :=
  ⟨id, kind, context, orNullStr url, orNullStr displayText, confidence⟩

/-- scoreEntity: confidence tier plus a bonus for link context. -/
def scoreEntity (e : Entity) : Nat :=
  (if e.confidence = .high then 3 else 0) +
  (if e.confidence = .medium then 2 else 0) +
  (if e.confidence = .low then 1 else 0) +
  (if e.context = .link then 1 else 0)

/-- The dedup key id, a bar, and the url or the empty string. -/
def entityKey (e : Entity) : String := e.id ++ "|" ++ e.url.getD ""

/-- Insertion-ordered map lookup, as in a JavaScript Map. -/
def mapGet (k : String) : List (String × Entity) → Option Entity
  | [] => none
  | (k2, v) :: rest => if k2 = k then some v else mapGet k rest

/-- Insertion-ordered map set: update in place, or append a new key. -/
def mapSet (k : String) (v : Entity) : List (String × Entity) → List (String × Entity)
  | [] => [(k, v)]
  | (k2, v2) :: rest => if k2 = k then (k, v) :: rest else (k2, v2) :: mapSet k v rest

def dedupeGo : List (String × Entity) → List Entity → List (String × Entity)
  | acc, [] => acc
  | acc, e :: rest =>
    match mapGet (entityKey e) acc with
    | none => dedupeGo (mapSet (entityKey e) e acc) rest
    | some existing =>
      if scoreEntity existing < scoreEntity e then
        dedupeGo (mapSet (entityKey e) e acc) rest
      else
        dedupeGo acc rest

/-- dedupeEntities: fold the candidates through the keyed map and return
its values in key insertion order. -/
def dedupeEntities (entities : List Entity) : List Entity :=
  (dedupeGo [] entities).map Prod.snd

/-- Link element as seen by scanLinks: whether it matches the exclude
selector, its raw href attribute, its text content, and the result of
resolving the href against the document base (none when resolution
fails). -/
structure Anchor where
  excludedMatch : Bool
  href : String
  text : String
  resolved : Option UrlParts
deriving DecidableEq, Repr

def isPathAlnum (c : Char) : Bool := c.isDigit || ('a' ≤ c ∧ c ≤ 'z')

/-- Greedy parse of the hyphen-alnum suffix groups of the path id pattern.
Returns the groups and the remaining characters. -/
def parsePathGroups : Nat → List Char → List (List Char) × List Char
  | 0, l => ([], l)
  | fuel + 1, '-' :: rest =>
    let run := rest.takeWhile isPathAlnum
    if run = [] then ([], '-' :: rest)
    else
      let (gs, rem) := parsePathGroups fuel (rest.drop run.length)
      (run :: gs, rem)
  | _ + 1, l => ([], l)

def renderGroups (gs : List (List Char)) : List Char :=
  gs.foldl (fun acc g => acc ++ '-' :: g) []

/-- Match of the path id pattern at one position: scp- then one to four
digits, then greedy suffix groups, then a word boundary; when the boundary
fails after the full greedy parse, the last group is dropped (the hyphen
that opened it then provides the boundary). -/
def tryScpPathAt (l : List Char) : Option (List Char) :=
  match l with
  | 's' :: 'c' :: 'p' :: '-' :: rest =>
    let ds := rest.takeWhile Char.isDigit
    if ds.length = 0 ∨ 4 < ds.length then none
    else
      let after := rest.drop ds.length
      let (gs, rem) := parsePathGroups after.length after
      if boundaryAfter rem then some (ds ++ renderGroups gs)
      else
        match gs with
        | [] => none
        | _ => some (ds ++ renderGroups gs.dropLast)
  | _ => none

def scanScpPath : List Char → Option (List Char)
  | [] => none
  | '/' :: rest =>
    (match tryScpPathAt rest with
     | some r => some r
     | none => scanScpPath rest)
  | _ :: rest => scanScpPath rest

/-- First match of the path id pattern: at the string start, or after any
slash, leftmost first. -/
def findScpPathId (l : List Char) : Option (List Char) :=
  match tryScpPathAt l with
  | some r => some r
  | none => scanScpPath l

/-- scanLinks over the document anchors: path-derived ids give high
confidence; otherwise the uppercased link text is normalized for a medium
confidence candidate. -/
def scanLinks : List Anchor → List Entity
  | [] => []
  | a :: rest =>
    let tail := scanLinks rest
    if a.excludedMatch then tail
    else if a.href = "" then tail
    else
      match a.resolved with
      | none => tail
      | some u =>
        let path := (unifyDashes (toLowerStr u.pathname)).data
        let pathEnt : Option Entity :=
          match findScpPathId path with
          | some numPart =>
            (match normalizeIdentifier ("SCP-" ++ String.mk numPart) with
             | some norm =>
               some (makeEntity norm.id norm.kind .link u.href (trimJs a.text) .high)
             | none => none)
          | none => none
        match pathEnt with
        | some e => e :: tail
        | none =>
          let text := trimJs a.text
          if text = "" then tail
          else
            match normalizeIdentifier (toUpperStr text) with
            | some tn => makeEntity tn.id tn.kind .link u.href text .medium :: tail
            | none => tail

/-- Inline prose element as seen by scanInline. -/
structure InlineNode where
  excludedMatch : Bool
  text : String
deriving DecidableEq, Repr

def isAlnumCi (c : Char) : Bool :=
  c.isDigit || ('a' ≤ c ∧ c ≤ 'z') || ('A' ≤ c ∧ c ≤ 'Z')

/-- The separator class of the inline pattern: a space or a dash variant. -/
def isSepChar (c : Char) : Bool := c = ' ' || dashChars.contains c

/-- Greedy parse of the inline-pattern suffix groups (ASCII hyphen followed
by alphanumerics of either case). -/
def parseInlineGroups : Nat → List Char → List (List Char) × List Char
  | 0, l => ([], l)
  | fuel + 1, '-' :: rest =>
    let run := rest.takeWhile isAsciiAlnum
    if run = [] then ([], '-' :: rest)
    else
      let (gs, rem) := parseInlineGroups fuel (rest.drop run.length)
      (run :: gs, rem)
  | _ + 1, l => ([], l)

/-- Match of the inline identifier pattern at one position, returning the
captured original text and the remainder after the match. -/
def tryInlineAt (l : List Char) : Option (List Char × List Char) :=
  match l with
  | c1 :: c2 :: c3 :: rest =>
    if lowerChar c1 = 's' ∧ lowerChar c2 = 'c' ∧ lowerChar c3 = 'p' then
      let seps := rest.takeWhile isSepChar
      let r2 := rest.drop seps.length
      let base? : Option (List Char × List Char) :=
        match r2.takeWhile Char.isDigit with
        | [] =>
          (match r2 with
           | b1 :: b2 :: b3 :: b4 :: r3 =>
             if b1 = blockChar ∧ b2 = blockChar ∧ b3 = blockChar ∧ b4 = blockChar then
               some ([blockChar, blockChar, blockChar, blockChar], r3)
             else none
           | _ => none)
        | ds =>
          let b := ds.take 4
          some (b, r2.drop b.length)
      match base? with
      | none => none
      | some (b, r3) =>
        let (gs, rem) := parseInlineGroups r3.length r3
        some (c1 :: c2 :: c3 :: (seps ++ b ++ renderGroups gs), rem)
    else none
  | _ => none

/-- Global scan of the inline pattern: a match may start at the string
start or right after a non-alphanumeric character, and the scan resumes
after the end of each match. -/
def inlineGo : Nat → Bool → List Char → List (List Char)
  | 0, _, _ => []
  | _ + 1, _, [] => []
  | fuel + 1, canStart, c :: rest =>
    if canStart then
      match tryInlineAt (c :: rest) with
      | some (cap, rem) => cap :: inlineGo fuel false rem
      | none => inlineGo fuel (!isAlnumCi c) rest
    else
      inlineGo fuel (!isAlnumCi c) rest

def inlineMatches (l : List Char) : List (List Char) :=
  inlineGo (l.length + 1) true l

/-- scanInline over the first maxNodes include-matched elements, capped at
twenty matches per element by the safety counter. -/
def scanInline : Nat → List InlineNode → List Entity
  | _, [] => []
  | 0, _ => []
  | n + 1, node :: rest =>
    let here :=
      if node.excludedMatch then []
      else
        let text := trimJs node.text
        if text = "" then []
        else
          ((inlineMatches text.data).take 20).filterMap (fun cap =>
            match normalizeIdentifier (String.mk cap) with
            | some norm =>
              some (makeEntity norm.id norm.kind .inline "" (String.mk cap) .low)
            | none => none)
    here ++ scanInline n rest

/-! ## Detector controller -/

structure Config where
  observe : Bool
  debounceMs : Nat
  includeSelectors : String
  excludeSelectors : String
  domainMap : List (String × SiteLocale)
  allowedDomains : Option (List String)
  strict : Bool
  maxNodes : Nat
  scanIframes : Bool
  allowAllDomains : Bool
deriving DecidableEq, Repr

/-- DEFAULT_CONFIG. -/
def defaultConfig : Config where
  observe := true
  debounceMs := 120
  includeSelectors := "a[href],p,li,span,div,h1,h2,h3,h4,h5,h6,blockquote,strong,em,small,figcaption,caption,td,th"
  excludeSelectors := "script,style,pre,code,textarea,input,select,button,[contenteditable],[data-scp-detector-exclude]"
  domainMap := defaultDomainMap
  allowedDomains := none
  strict := false
  maxNodes := 5000
  scanIframes := false
  allowAllDomains := true

/-- isAllowedDomain: empty hostnames always pass; a nonempty allowlist is
consulted; otherwise the allowAllDomains flag decides. -/
def isAllowedDomain (hostname : String) (cfg : Config) : Bool :=
  if hostname = "" then true
  else
    match cfg.allowedDomains with
    | some l => if 0 < l.length then l.contains hostname else cfg.allowAllDomains
    | none => cfg.allowAllDomains

/-- The update event payload, a field copy of the current state as built by
getResults. -/
structure Payload where
  page : PageClassification
  entities : List Entity
  lastUpdatedAt : Nat
deriving DecidableEq, Repr

structure DState where
  page : PageClassification
  entities : List Entity
  lastUpdatedAt : Nat
deriving DecidableEq, Repr

/-- A subscribed update callback: its identity and its behaviour when
invoked, which may raise (the error value). -/
structure CBack where
  id : Nat
  run : Payload → Except String Unit

structure Detector where
  cfg : Config
  disposed : Bool
  observerAttached : Bool
  listeners : List CBack
  state : DState

def initialState : DState :=
  ⟨⟨.unknown, "unknown", "unknown", "", 0⟩, [], 0⟩

def createDetector (cfg : Config) (observerOk : Bool) : Detector :=
  ⟨cfg, false, cfg.observe && observerOk, [], initialState⟩

def getPageClassification (det : Detector) : PageClassification := det.state.page

def getEntities (det : Detector) : List Entity := det.state.entities

def getResults (det : Detector) : Payload :=
  ⟨det.state.page, det.state.entities, det.state.lastUpdatedAt⟩

/-- dispose: set the disposed flag, disconnect the observer and clear the
listeners. -/
def dispose (det : Detector) : Detector :=
  { det with disposed := true, observerAttached := false, listeners := [] }

/-- The points inside one compute cycle, all prior to the state
replacement, at which a runtime exception can be raised: the classifier
call, the two scanner passes, the two debug log calls, and the dedup
call. -/
inductive FailPoint where
  | classifyFail
  | scanLinksFail
  | scanInlineFail
  | logScanFail
  | dedupeFail
  | logDedupeFail
deriving DecidableEq, Repr

/-- Environment of one compute cycle: document presence, the location
href, its parse (none when the URL constructor fails), the document title,
the enumerated anchors and inline elements, the clock value, and the point
at which a runtime exception is raised, if any. -/
structure ComputeInput where
  docPresent : Bool
  base : String
  parsedBase : Option UrlParts
  title : Option String
  anchors : List Anchor
  inlineNodes : List InlineNode
  now : Nat
  failPoint : Option FailPoint
deriving DecidableEq, Repr

/-- The URL object used by compute, with the fallback object of the
source. -/
def computeUrl (inp : ComputeInput) : UrlParts :=
  inp.parsedBase.getD ⟨"", "/", inp.base⟩

/-- Runs one step of the cycle, raising when the environment designates
this step as the failing one. -/
def stepCk {α : Type} (inp : ComputeInput) (fp : FailPoint) (a : α) : Except Unit α :=
  if inp.failPoint = some fp then .error () else .ok a

/-- The body of compute inside its try block: either the disallowed-domain
short-circuit (classify, clear entities, emit) or the full cycle
(classify, scan, dedupe, replace state, emit). Returns the new state and
the emitted payloads, or the raised exception. -/
def computeBody (det : Detector) (inp : ComputeInput) :
    Except Unit (DState × List Payload) := do
  let urlObj := computeUrl inp
  if !(isAllowedDomain (toLowerStr urlObj.hostname) det.cfg) then
    let page ← stepCk inp .classifyFail (classifyPage (some urlObj) inp.title)
    pure (⟨page, [], inp.now⟩, [⟨page, [], inp.now⟩])
  else
    let page ← stepCk inp .classifyFail (classifyPage (some urlObj) inp.title)
    let links ← stepCk inp .scanLinksFail (scanLinks inp.anchors)
    let inls ← stepCk inp .scanInlineFail (scanInline det.cfg.maxNodes inp.inlineNodes)
    let _ ← stepCk inp .logScanFail ()
    let all ← stepCk inp .dedupeFail (dedupeEntities (links ++ inls))
    let _ ← stepCk inp .logDedupeFail ()
    pure (⟨page, all, inp.now⟩, [⟨page, all, inp.now⟩])

/-- Result of one compute call: the detector afterwards, the update
payloads emitted, and the action tags reported to the error handler. -/
structure ComputeOut where
  det : Detector
  emissions : List Payload
  handledErrors : List String

/-- compute: no-op when disposed or when no document is available;
otherwise run the body, and on an exception report it to the error handler
and leave the state untouched. -/
def compute (det : Detector) (inp : ComputeInput) : ComputeOut :=
  if det.disposed then ⟨det, [], []⟩
  else if !inp.docPresent then ⟨det, [], []⟩
  else
    match computeBody det inp with
    | .ok (st, evs) => ⟨{ det with state := st }, evs, []⟩
    | .error _ => ⟨det, [], ["compute"]⟩

/-! ## Emitter -/

/-- Record of one callback invocation during an emit: which callback, with
which payload, and the exception it raised, if any (caught and
swallowed). -/
structure CallRecord where
  cbId : Nat
  payload : Payload
  caught : Option String

/-- emit over a listener list: every callback is invoked in order with the
same payload; a raised exception is swallowed and the iteration
continues. -/
def emitCalls (cbs : List CBack) (p : Payload) : List CallRecord :=
  cbs.map (fun cb =>
    match cb.run p with
    | .ok _ => ⟨cb.id, p, none⟩
    | .error e => ⟨cb.id, p, some e⟩)

/-- emit as performed by the controller: the detector itself is not
touched. -/
def emitOn (det : Detector) (p : Payload) : Detector × List CallRecord :=
  (det, emitCalls det.listeners p)

/-! ## Reference heap model of the accessor copies

getResults and getEntities return fresh containers, but the entity objects
inside the returned array are the same objects the controller state points
to. The heap model makes this aliasing explicit: objects live in a heap
addressed by numbers, the state holds references, and the accessor
allocates copies of the page object and of the array while keeping the
entity references shared. -/

inductive HObj where
  | ent (e : Entity)
  | arr (refs : List Nat)
  | pg (p : PageClassification)
deriving DecidableEq, Repr

structure RWorld where
  heap : List HObj
  pageRef : Nat
  arrRef : Nat
  lastUpdatedAt : Nat
deriving DecidableEq, Repr

def lookupObj (w : RWorld) (r : Nat) : Option HObj := w.heap[r]?

/-- The entity references held by the internal entities array. -/
def entityRefsOf (w : RWorld) : List Nat :=
  match lookupObj w w.arrRef with
  | some (.arr rs) => rs
  | _ => []

def pageValOf (w : RWorld) : Option PageClassification :=
  match lookupObj w w.pageRef with
  | some (.pg p) => some p
  | _ => none

/-- The entity values reachable from the internal state. -/
def entityValsOf (w : RWorld) : List (Option Entity) :=
  (entityRefsOf w).map (fun r =>
    match lookupObj w r with
    | some (.ent e) => some e
    | _ => none)

/-- What the controller state denotes: the page value, the entity values
and the timestamp. Subsequent accessor calls report exactly this. -/
def observableResults (w : RWorld) : Option PageClassification × List (Option Entity) × Nat :=
  (pageValOf w, entityValsOf w, w.lastUpdatedAt)

/-- getResults in the heap model: allocate a field copy of the page object
and a slice of the entities array (sharing the entity references), and
hand the two fresh references to the caller. -/
def getResultsR (w : RWorld) : RWorld × Nat × Nat :=
  let pgCopy : HObj :=
    match pageValOf w with
    | some p => .pg p
    | none => .pg ⟨.unknown, "unknown", "unknown", "", 0⟩
  let arrCopy : HObj := .arr (entityRefsOf w)
  ({ w with heap := w.heap ++ [pgCopy, arrCopy] }, w.heap.length, w.heap.length + 1)

/-- A caller-side mutation of the object behind one reference. -/
def writeObj (w : RWorld) (r : Nat) (o : HObj) : RWorld :=
  { w with heap := w.heap.set r o }

/-- Wellformedness: the state references point into the heap. -/
def wfWorld (w : RWorld) : Prop :=
  w.pageRef < w.heap.length ∧ w.arrRef < w.heap.length ∧
    ∀ r ∈ entityRefsOf w, r < w.heap.length

instance (w : RWorld) : Decidable (wfWorld w) := by
  unfold wfWorld; infer_instance

/-! ## Concrete instances used by the theorems -/

/-- Two link elements with different visible text whose hrefs resolve to
the same scp article URL. -/
def anchorsTwoSameUrl : List Anchor :=
  [⟨false, "/scp-173", "SCP-173",
    some ⟨"scp-wiki.wikidot.com", "/scp-173", "https://scp-wiki.wikidot.com/scp-173"⟩⟩,
   ⟨false, "/scp-173", "The Sculpture",
    some ⟨"scp-wiki.wikidot.com", "/scp-173", "https://scp-wiki.wikidot.com/scp-173"⟩⟩]

/-- A detector over the default configuration. -/
def detDefault : Detector := createDetector defaultConfig true

/-- A configuration whose domainMap carries a custom entry. -/
def detCustomMap : Detector :=
  createDetector { defaultConfig with domainMap := [("custom.example", ⟨"custom", "xx"⟩)] } true

/-- A compute environment on the host of the custom domainMap entry. -/
def inpCustomHost : ComputeInput :=
  ⟨true, "https://custom.example/", some ⟨"custom.example", "/", "https://custom.example/"⟩,
   none, [], [], 3, none⟩

/-- A detector configured with an empty allowedDomains list. -/
def detEmptyAllow : Detector :=
  createDetector { defaultConfig with allowedDomains := some [] } true

/-- A detector whose allowlist names one host. -/
def detOneAllow : Detector :=
  createDetector { defaultConfig with allowedDomains := some ["allowed.example"] } true

/-- A compute environment on an unlisted host whose document contains two
links encoding scp-173. -/
def inpUnlisted : ComputeInput :=
  ⟨true, "https://notlisted.example/page",
   some ⟨"notlisted.example", "/page", "https://notlisted.example/page"⟩,
   some "Hello", anchorsTwoSameUrl, [], 10, none⟩

/-- An allowed-wiki environment with an exception injected at the link
scan. -/
def inpWikiFail : ComputeInput :=
  ⟨true, "https://scp-wiki.wikidot.com/scp-173",
   some ⟨"scp-wiki.wikidot.com", "/scp-173", "https://scp-wiki.wikidot.com/scp-173"⟩,
   some "SCP-173", anchorsTwoSameUrl, [], 4, some .scanLinksFail⟩

/-- The page object of the heap-model worlds. -/
def pgRef : PageClassification :=
  ⟨.scp_article, "scp-wiki", "en", "https://scp-wiki.wikidot.com/scp-173", mkRat 9 10⟩

/-- The entity object of the heap-model worlds. -/
def entRef : Entity :=
  ⟨"scp-173", .scp, .link, some "https://scp-wiki.wikidot.com/scp-173", some "SCP-173", .high⟩

/-- The entity object after a caller-side field mutation. -/
def entRefMut : Entity := { entRef with displayText := some "mutated" }

/-- A wellformed world: one entity object, the page object, and the state
array holding the one entity reference. -/
def wRef : RWorld := ⟨[.ent entRef, .pg pgRef, .arr [0]], 1, 2, 5⟩

/-- Reads the contents of an array object, as a caller does with the
returned entities array. -/
def readArr (w : RWorld) (r : Nat) : List Nat :=
  match lookupObj w r with
  | some (.arr rs) => rs
  | _ => []

/-- A URL on a host listed in the built-in domain map. -/
def uJp : UrlParts := ⟨"scp-jp.wikidot.com", "/x", "https://scp-jp.wikidot.com/x"⟩

/-- A URL whose path names scp-001. -/
def u001 : UrlParts :=
  ⟨"scp-wiki.wikidot.com", "/scp-001", "https://scp-wiki.wikidot.com/scp-001"⟩

/-! ## Deduplication: specification functions -/

/-- The comparison step of the dedup loop: keep the incumbent unless the
newcomer scores strictly higher. -/
def bestStep (b e : Entity) : Entity :=
  if scoreEntity b < scoreEntity e then e else b

def foldBest (b : Entity) (t : List Entity) : Entity := t.foldl bestStep b

/-- The per-key effect of processing one candidate on the stored value. -/
def updStep (o : Option Entity) (e : Entity) : Option Entity :=
  match o with
  | none => some e
  | some b => some (bestStep b e)

/-- Specification predicate: e maximizes the score over l. -/
def maxPred (l : List Entity) (e : Entity) : Bool :=
  l.all (fun y => decide (scoreEntity y ≤ scoreEntity e))

/-- Specification function: the first candidate whose score is maximal in
the list, the direct reading of highest score with first-seen
tie-break. -/
def firstMaxEntity (l : List Entity) : Option Entity := l.find? (maxPred l)

/-- Keys respect the entities stored under them. -/
def wellKeyed (m : List (String × Entity)) : Prop :=
  ∀ p ∈ m, entityKey p.2 = p.1

/-! ## Helper lemmas for the emitter -/

theorem emitCalls_ids (cbs : List CBack) (p : Payload) :
    (emitCalls cbs p).map (fun r => r.cbId) = cbs.map (fun cb => cb.id) := by
  induction cbs with
  | nil => rfl
  | cons cb rest ih =>
    simp only [emitCalls, List.map_cons] at ih ⊢
    cases h : cb.run p <;> simp [h, ih]

theorem emitCalls_payloads (cbs : List CBack) (p : Payload) :
    (emitCalls cbs p).all (fun r => decide (r.payload = p)) = true := by
  induction cbs with
  | nil => rfl
  | cons cb rest ih =>
    simp only [emitCalls, List.map_cons, List.all_cons] at ih ⊢
    cases h : cb.run p <;> simp [h, ih]

/-! ## Claim theorems -/

/-- C1: the claim says every accepted input with numeric body 001 yields
kind proposal_or_article. The code strips leading zeros before running the
001 test, so the test never fires: normalizeIdentifier of SCP-001 returns
id scp-1 with kind scp, contradicting the intent stated in the sources own
comment about 001 proposals. -/
theorem C1_normalize001_code_bug :
    normalizeIdentifier "SCP-001" = some ⟨"scp-1", Kind.scp⟩ ∧
      Kind.scp ≠ Kind.proposal_or_article := by
  exact ⟨by decide, by decide⟩

/-- C7: the three reference inputs of the spec normalize exactly as
specified. -/
theorem C7_normalize_reference_inputs :
    normalizeIdentifier "SCP-173" = some ⟨"scp-173", Kind.scp⟩ ∧
      normalizeIdentifier "SCP 049 - J" = some ⟨"scp-49-j", Kind.scp_variant⟩ ∧
      normalizeIdentifier "SCP–████" = some ⟨"scp-unknown", Kind.scp⟩ := by
  exact ⟨by decide, by decide, by decide⟩

/-- C3: whenever a compute cycle raises before the state replacement, the
exception is caught and reported to the error handler under the compute
action tag, nothing propagates (compute is total), no update is emitted,
and the detector state seen by the accessors is exactly the previous
one. -/
theorem C3_compute_error_atomicity (det : Detector) (inp : ComputeInput)
    (h1 : det.disposed = false) (h2 : inp.docPresent = true)
    (h3 : computeBody det inp = .error ()) :
    compute det inp = ⟨det, [], ["compute"]⟩ ∧
      getResults (compute det inp).det = getResults det := by
  have hc : compute det inp = ⟨det, [], ["compute"]⟩ := by
    simp [compute, h1, h2, h3]
  exact ⟨hc, by rw [hc]⟩

/-- Witness for C3 at a concrete failing cycle. -/
theorem C3_compute_error_atomicity_witness :
    compute detDefault inpWikiFail = ⟨detDefault, [], ["compute"]⟩ := by
  exact (C3_compute_error_atomicity detDefault inpWikiFail rfl rfl rfl).1

/-- C8: after dispose, every compute call (also one fired by a pending
debounce timer or the deferred autostart) leaves the detector unchanged
and emits nothing, the listeners are cleared, the observer subscription is
detached, and dispose is idempotent. -/
theorem C8_dispose_terminal (det : Detector) (inp : ComputeInput) :
    compute (dispose det) inp = ⟨dispose det, [], []⟩ ∧
      dispose (dispose det) = dispose det ∧
      (dispose det).listeners = [] ∧
      (dispose det).observerAttached = false ∧
      (dispose det).disposed = true ∧
      (dispose det).state = det.state := by
  exact ⟨rfl, rfl, rfl, rfl, rfl, rfl⟩

/-- C10: during an emit every subscribed callback is invoked, in order,
with the same payload, whether or not earlier callbacks raised; a raised
exception is caught and swallowed inside the emitter (emit is total and
records the caught error), and the detector is unchanged. -/
theorem C10_emit_swallow (det : Detector) (p : Payload) :
    (emitOn det p).1 = det ∧
      ((emitOn det p).2.map (fun r => r.cbId)) = det.listeners.map (fun cb => cb.id) ∧
      ((emitOn det p).2.all (fun r => decide (r.payload = p))) = true := by
  exact ⟨rfl, emitCalls_ids det.listeners p, emitCalls_payloads det.listeners p⟩

/-- C2 counterexample: the configuration carries a domainMap entry for the
current hostname, yet the computed classification reports site unknown
rather than the entry of the supplied map, because the classifier reads
the built-in default map. -/
theorem C2_domainMap_counterexample :
    detCustomMap.cfg.domainMap.lookup (toLowerStr (computeUrl inpCustomHost).hostname) =
        some ⟨"custom", "xx"⟩ ∧
      (compute detCustomMap inpCustomHost).det.state.page.site = "unknown" ∧
      (compute detCustomMap inpCustomHost).det.state.page.site ≠ "custom" ∧
      (compute detCustomMap inpCustomHost).det.state.page.locale ≠ "xx" := by
  exact ⟨by decide, by decide, by decide, by decide⟩

/-- C4 counterexample: with a non-null but empty allowedDomains list and a
hostname (necessarily) not contained in it, compute still scans the
document and produces entities, because an empty allowlist falls back to
the allowAllDomains flag. -/
theorem C4_allowlist_counterexample :
    detEmptyAllow.cfg.allowedDomains = some [] ∧
      (compute detEmptyAllow inpUnlisted).det.state.entities ≠ [] := by
  exact ⟨rfl, by decide⟩

/-- C9 counterexample: the entities array returned by the accessor holds
references to the same entity objects as the internal state; mutating the
entity object behind the first returned reference changes what subsequent
accessor calls report, so the internal state is not insulated from caller
mutations of returned entity objects. -/
theorem C9_shallow_copy_counterexample :
    readArr (getResultsR wRef).1 (getResultsR wRef).2.2 = [0] ∧
      observableResults (writeObj (getResultsR wRef).1 0 (.ent entRefMut)) ≠
        observableResults wRef := by
  exact ⟨by decide, by decide⟩

/-- Two worlds whose heaps agree on the references reachable from the
(identical) state denote the same observable results. -/
theorem observable_of_agree (w w2 : RWorld)
    (hp : w2.pageRef = w.pageRef) (ha : w2.arrRef = w.arrRef)
    (ht : w2.lastUpdatedAt = w.lastUpdatedAt)
    (hag : ∀ r, r < w.heap.length → w2.heap[r]? = w.heap[r]?)
    (hwf : wfWorld w) :
    observableResults w2 = observableResults w := by
  obtain ⟨hw1, hw2, hw3⟩ := hwf
  have hpg : pageValOf w2 = pageValOf w := by
    unfold pageValOf lookupObj
    rw [hp, hag _ hw1]
  have harr : entityRefsOf w2 = entityRefsOf w := by
    unfold entityRefsOf lookupObj
    rw [ha, hag _ hw2]
  have hev : entityValsOf w2 = entityValsOf w := by
    unfold entityValsOf
    rw [harr]
    refine List.map_congr_left ?_
    intro r hr
    unfold lookupObj
    rw [hag _ (hw3 r hr)]
  unfold observableResults
  rw [hpg, hev, ht]

/-- C9 amended: the accessor returns fresh containers, so reading changes
nothing observable, and caller mutations of the two returned container
objects (the copied page object and the sliced array) never change what
the internal state denotes; only the shared entity objects are mutable
through the returned references, as the counterexample shows. -/
theorem C9_shallow_copy_amended (w : RWorld) (hwf : wfWorld w) :
    observableResults (getResultsR w).1 = observableResults w ∧
      (∀ o : HObj,
        observableResults (writeObj (getResultsR w).1 (getResultsR w).2.1 o) =
          observableResults w) ∧
      (∀ o : HObj,
        observableResults (writeObj (getResultsR w).1 (getResultsR w).2.2 o) =
          observableResults w) := by
  refine ⟨?_, ?_, ?_⟩
  · refine observable_of_agree w (getResultsR w).1 rfl rfl rfl ?_ hwf
    intro r hr
    exact List.getElem?_append_left hr
  · intro o
    refine observable_of_agree w (writeObj (getResultsR w).1 (getResultsR w).2.1 o) rfl rfl rfl ?_ hwf
    intro r hr
    have h1 : ((getResultsR w).1.heap.set (getResultsR w).2.1 o)[r]? =
        (getResultsR w).1.heap[r]? := by
      refine List.getElem?_set_ne ?_
      show w.heap.length ≠ r
      omega
    calc (writeObj (getResultsR w).1 (getResultsR w).2.1 o).heap[r]?
        = (getResultsR w).1.heap[r]? := h1
      _ = w.heap[r]? := List.getElem?_append_left hr
  · intro o
    refine observable_of_agree w (writeObj (getResultsR w).1 (getResultsR w).2.2 o) rfl rfl rfl ?_ hwf
    intro r hr
    have h1 : ((getResultsR w).1.heap.set (getResultsR w).2.2 o)[r]? =
        (getResultsR w).1.heap[r]? := by
      refine List.getElem?_set_ne ?_
      show w.heap.length + 1 ≠ r
      omega
    calc (writeObj (getResultsR w).1 (getResultsR w).2.2 o).heap[r]?
        = (getResultsR w).1.heap[r]? := h1
      _ = w.heap[r]? := List.getElem?_append_left hr

/-- Witness for the C9 amended theorem at the concrete world. -/
theorem C9_shallow_copy_amended_witness :
    wfWorld wRef ∧ observableResults (getResultsR wRef).1 = observableResults wRef :=
  ⟨by decide, (C9_shallow_copy_amended wRef (by decide)).1⟩

/-- C4 amended: with a non-empty allowlist and a non-empty current
hostname outside it, compute forces the entities to the empty list while
still classifying the page, stamps the clock, and emits an update carrying
that state. -/
theorem C4_allowlist_amended (det : Detector) (inp : ComputeInput) (l : List String)
    (h1 : det.disposed = false) (h2 : inp.docPresent = true) (h3 : inp.failPoint = none)
    (h4 : det.cfg.allowedDomains = some l) (h5 : l ≠ [])
    (h6 : toLowerStr (computeUrl inp).hostname ≠ "")
    (h7 : toLowerStr (computeUrl inp).hostname ∉ l) :
    (compute det inp).det.state.entities = [] ∧
      (compute det inp).det.state.page = classifyPage (some (computeUrl inp)) inp.title ∧
      (compute det inp).det.state.lastUpdatedAt = inp.now ∧
      (compute det inp).emissions =
        [⟨classifyPage (some (computeUrl inp)) inp.title, [], inp.now⟩] := by
  have hlen : 0 < l.length := List.length_pos.mpr h5
  have hna : isAllowedDomain (toLowerStr (computeUrl inp).hostname) det.cfg = false := by
    unfold isAllowedDomain
    rw [h4]
    simp [h6, hlen, h7]
  simp [compute, computeBody, h1, h2, h3, hna, stepCk]

/-- Witness for the C4 amended theorem at a concrete blocked host. -/
theorem C4_allowlist_amended_witness :
    (compute detOneAllow inpUnlisted).det.state.entities = [] ∧
      (compute detOneAllow inpUnlisted).det.state.page =
        classifyPage (some (computeUrl inpUnlisted)) inpUnlisted.title := by
  have h := C4_allowlist_amended detOneAllow inpUnlisted ["allowed.example"]
    rfl rfl rfl rfl (by decide) (by decide) (by decide)
  exact ⟨h.1, h.2.1⟩

/-- The compute body never reads the configured domainMap. -/
theorem computeBody_domainMap (det : Detector) (inp : ComputeInput)
    (m : List (String × SiteLocale)) :
    computeBody { det with cfg := { det.cfg with domainMap := m } } inp =
      computeBody det inp := rfl

/-- Every branch of the classifier carries the same site lookup. -/
theorem classifyPage_site (u : Option UrlParts) (t : Option String) :
    (classifyPage u t).site = domainSite (classifyHost u) := by
  simp only [classifyPage]
  split_ifs <;> rfl

/-- Every branch of the classifier carries the same locale lookup. -/
theorem classifyPage_locale (u : Option UrlParts) (t : Option String) :
    (classifyPage u t).locale = domainLocale (classifyHost u) := by
  simp only [classifyPage]
  split_ifs <;> rfl

/-- C2 amended: the page produced by compute is independent of the
configured domainMap, and the site and locale of a classification are
looked up in the built-in default domain map, hostnames outside it yielding
unknown. -/
theorem C2_domainMap_amended (det : Detector) (inp : ComputeInput)
    (m : List (String × SiteLocale)) :
    (compute { det with cfg := { det.cfg with domainMap := m } } inp).det.state =
        (compute det inp).det.state ∧
      (∀ (u : UrlParts) (t : Option String) (e : SiteLocale),
        defaultDomainMap.lookup (classifyHost (some u)) = some e →
          (classifyPage (some u) t).site = (if e.site = "" then "unknown" else e.site) ∧
            (classifyPage (some u) t).locale =
              (if e.locale = "" then "unknown" else e.locale)) ∧
      (∀ (u : UrlParts) (t : Option String),
        defaultDomainMap.lookup (classifyHost (some u)) = none →
          (classifyPage (some u) t).site = "unknown" ∧
            (classifyPage (some u) t).locale = "unknown") := by
  refine ⟨?_, ?_, ?_⟩
  · obtain ⟨cfg, d, ob, ls, st⟩ := det
    unfold compute
    rw [computeBody_domainMap]
    cases d with
    | false =>
      cases hdp : inp.docPresent with
      | false => simp [hdp]
      | true =>
        cases hcb : computeBody ⟨cfg, false, ob, ls, st⟩ inp with
        | ok pr => simp [hdp, hcb]
        | error e => simp [hdp, hcb]
    | true => simp
  · intro u t e he
    rw [classifyPage_site, classifyPage_locale]
    unfold domainSite domainLocale
    rw [he]
    exact ⟨rfl, rfl⟩
  · intro u t he
    rw [classifyPage_site, classifyPage_locale]
    unfold domainSite domainLocale
    rw [he]
    exact ⟨rfl, rfl⟩

/-- Witness for the C2 amended theorem at a mapped hostname. -/
theorem C2_domainMap_amended_witness :
    (classifyPage (some uJp) none).site =
        (if ("scp-wiki" : String) = "" then "unknown" else "scp-wiki") ∧
      (classifyPage (some uJp) none).locale =
        (if ("ja" : String) = "" then "unknown" else "ja") :=
  (C2_domainMap_amended detDefault inpCustomHost []).2.1 uJp none ⟨"scp-wiki", "ja"⟩
    (by decide)

/-- C6: the classifier applies its branches in the fixed first-match-wins
order and each branch returns exactly its literal confidence: the scp-001
path at six tenths, the numbered-article pattern at nine tenths by path or
six tenths by title only, series at six tenths, hub at five tenths, tale
at four tenths, and otherwise non-scp at three tenths on the known wiki or
unknown at one tenth elsewhere. -/
theorem C6_classify_branch_order (u : Option UrlParts) (t : Option String) :
    (isSCP001B (classifyPath u) = true →
      (classifyPage u t).type = .proposal_or_index ∧
        (classifyPage u t).confidence = mkRat 6 10) ∧
    (isSCP001B (classifyPath u) = false →
      (isSCPPathB (classifyPath u) || titleScpNumB (classifyTitleChars t)) = true →
      (classifyPage u t).type = .scp_article ∧
        (classifyPage u t).confidence =
          (if isSCPPathB (classifyPath u) then mkRat 9 10 else mkRat 6 10)) ∧
    (isSCP001B (classifyPath u) = false →
      (isSCPPathB (classifyPath u) || titleScpNumB (classifyTitleChars t)) = false →
      (wholeWordB "series" (classifyPath u) || seriesTitleB (classifyTitleChars t)) = true →
      (classifyPage u t).type = .series ∧ (classifyPage u t).confidence = mkRat 6 10) ∧
    (isSCP001B (classifyPath u) = false →
      (isSCPPathB (classifyPath u) || titleScpNumB (classifyTitleChars t)) = false →
      (wholeWordB "series" (classifyPath u) || seriesTitleB (classifyTitleChars t)) = false →
      (wholeWordB "hub" (classifyPath u) || containsSeq "hub".data (classifyTitleChars t)) = true →
      (classifyPage u t).type = .hub ∧ (classifyPage u t).confidence = mkRat 5 10) ∧
    (isSCP001B (classifyPath u) = false →
      (isSCPPathB (classifyPath u) || titleScpNumB (classifyTitleChars t)) = false →
      (wholeWordB "series" (classifyPath u) || seriesTitleB (classifyTitleChars t)) = false →
      (wholeWordB "hub" (classifyPath u) || containsSeq "hub".data (classifyTitleChars t)) = false →
      (wholeWordB "tale" (classifyPath u) || containsSeq "tale".data (classifyTitleChars t)) = true →
      (classifyPage u t).type = .tale ∧ (classifyPage u t).confidence = mkRat 4 10) ∧
    (isSCP001B (classifyPath u) = false →
      (isSCPPathB (classifyPath u) || titleScpNumB (classifyTitleChars t)) = false →
      (wholeWordB "series" (classifyPath u) || seriesTitleB (classifyTitleChars t)) = false →
      (wholeWordB "hub" (classifyPath u) || containsSeq "hub".data (classifyTitleChars t)) = false →
      (wholeWordB "tale" (classifyPath u) || containsSeq "tale".data (classifyTitleChars t)) = false →
      ((domainSite (classifyHost u) = "scp-wiki" →
        (classifyPage u t).type = .non_scp ∧ (classifyPage u t).confidence = mkRat 3 10) ∧
       (domainSite (classifyHost u) ≠ "scp-wiki" →
        (classifyPage u t).type = .unknown ∧ (classifyPage u t).confidence = mkRat 1 10))) := by
  refine ⟨?_, ?_, ?_, ?_, ?_, ?_⟩
  · intro h1
    simp [classifyPage, h1]
  · intro h1 h2
    simp [classifyPage, h1, h2]
  · intro h1 h2 h3
    simp [classifyPage, h1, h2, h3]
  · intro h1 h2 h3 h4
    simp [classifyPage, h1, h2, h3, h4]
  · intro h1 h2 h3 h4 h5
    simp [classifyPage, h1, h2, h3, h4, h5]
  · intro h1 h2 h3 h4 h5
    constructor
    · intro h6
      simp [classifyPage, h1, h2, h3, h4, h5, h6]
    · intro h6
      simp [classifyPage, h1, h2, h3, h4, h5, h6]

/-- Witness for C6 at the scp-001 path. -/
theorem C6_classify_branch_order_witness :
    (classifyPage (some u001) none).type = PageType.proposal_or_index ∧
      (classifyPage (some u001) none).confidence = mkRat 6 10 :=
  (C6_classify_branch_order (some u001) none).1 (by decide)

/-! ## Deduplication lemmas -/

theorem mapGet_mapSet (k k2 : String) (v : Entity) :
    ∀ acc : List (String × Entity),
      mapGet k (mapSet k2 v acc) = if k2 = k then some v else mapGet k acc := by
  intro acc
  induction acc with
  | nil => simp [mapGet, mapSet]
  | cons p rest ih =>
    obtain ⟨a, b⟩ := p
    by_cases h1 : a = k2
    · subst h1
      by_cases h2 : a = k <;> simp [mapGet, mapSet, h2]
    · simp only [mapSet, if_neg h1, mapGet]
      by_cases h2 : a = k
      · subst h2
        have h3 : ¬(k2 = a) := fun hx => h1 hx.symm
        simp [h3]
      · simp [h2, ih]

theorem mapGet_none (k : String) :
    ∀ acc : List (String × Entity), mapGet k acc = none ↔ ∀ p ∈ acc, p.1 ≠ k := by
  intro acc
  induction acc with
  | nil => simp [mapGet]
  | cons p rest ih =>
    obtain ⟨a, b⟩ := p
    by_cases h : a = k
    · subst h
      simp [mapGet]
    · simp [mapGet, h, ih]

theorem mapSet_keys (k : String) (v : Entity) :
    ∀ acc : List (String × Entity),
      (mapSet k v acc).map Prod.fst =
        if (mapGet k acc).isSome then acc.map Prod.fst else acc.map Prod.fst ++ [k] := by
  intro acc
  induction acc with
  | nil => simp [mapGet, mapSet]
  | cons p rest ih =>
    obtain ⟨a, b⟩ := p
    by_cases h : a = k
    · subst h
      simp [mapGet, mapSet]
    · have h2 : ¬(a = k) := h
      simp only [mapSet, if_pos rfl, if_neg h2, List.map_cons, mapGet, ih]
      by_cases h3 : (mapGet k rest).isSome <;> simp [h3]

theorem mapSet_nodup (k : String) (v : Entity) (acc : List (String × Entity))
    (h : (acc.map Prod.fst).Nodup) : ((mapSet k v acc).map Prod.fst).Nodup := by
  rw [mapSet_keys]
  by_cases hs : (mapGet k acc).isSome
  · rw [if_pos hs]; exact h
  · rw [if_neg hs]
    have hn : mapGet k acc = none := by
      cases hg : mapGet k acc
      · rfl
      · rw [hg] at hs; simp at hs
    have hk : k ∉ acc.map Prod.fst := by
      intro hmem
      obtain ⟨p, hp, hpk⟩ := List.mem_map.mp hmem
      exact ((mapGet_none k acc).mp hn p hp) hpk
    simp [List.nodup_append, h, hk]

theorem mapSet_wellKeyed (k : String) (v : Entity) (hkv : entityKey v = k) :
    ∀ acc, wellKeyed acc → wellKeyed (mapSet k v acc) := by
  intro acc
  induction acc with
  | nil =>
    intro _ p hp
    simp only [mapSet, List.mem_singleton] at hp
    subst hp
    exact hkv
  | cons q rest ih =>
    obtain ⟨a, b⟩ := q
    intro h p hp
    have hrest : wellKeyed rest := fun q2 hq => h q2 (List.mem_cons_of_mem _ hq)
    by_cases h1 : a = k
    · simp only [mapSet, if_pos h1] at hp
      rcases List.mem_cons.mp hp with h2 | h2
      · subst h2; exact hkv
      · exact h p (List.mem_cons_of_mem _ h2)
    · simp only [mapSet, if_neg h1] at hp
      rcases List.mem_cons.mp hp with h2 | h2
      · subst h2; exact h (a, b) (List.mem_cons_self _ _)
      · exact ih hrest p h2

theorem dedupeGo_wellKeyed :
    ∀ (l : List Entity) (acc), wellKeyed acc → wellKeyed (dedupeGo acc l) := by
  intro l
  induction l with
  | nil => intro acc h; exact h
  | cons e rest ih =>
    intro acc h
    show wellKeyed (dedupeGo acc (e :: rest))
    rw [dedupeGo]
    cases hg : mapGet (entityKey e) acc with
    | none => exact ih _ (mapSet_wellKeyed _ _ rfl _ h)
    | some ex =>
      dsimp only
      by_cases hs : scoreEntity ex < scoreEntity e
      · rw [if_pos hs]; exact ih _ (mapSet_wellKeyed _ _ rfl _ h)
      · rw [if_neg hs]; exact ih _ h

theorem dedupeGo_nodup :
    ∀ (l : List Entity) (acc), (acc.map Prod.fst).Nodup →
      ((dedupeGo acc l).map Prod.fst).Nodup := by
  intro l
  induction l with
  | nil => intro acc h; exact h
  | cons e rest ih =>
    intro acc h
    rw [dedupeGo]
    cases hg : mapGet (entityKey e) acc with
    | none => exact ih _ (mapSet_nodup _ _ _ h)
    | some ex =>
      dsimp only
      by_cases hs : scoreEntity ex < scoreEntity e
      · rw [if_pos hs]; exact ih _ (mapSet_nodup _ _ _ h)
      · rw [if_neg hs]; exact ih _ h

theorem dedupeGo_mapGet (k : String) :
    ∀ (l : List Entity) (acc : List (String × Entity)),
      mapGet k (dedupeGo acc l) =
        (l.filter (fun e => decide (entityKey e = k))).foldl updStep (mapGet k acc) := by
  intro l
  induction l with
  | nil => intro acc; rfl
  | cons e rest ih =>
    intro acc
    rw [dedupeGo]
    by_cases hk : entityKey e = k
    · rw [List.filter_cons_of_pos (by simpa using hk), List.foldl_cons]
      cases hg : mapGet (entityKey e) acc with
      | none =>
        dsimp only
        have hgk : mapGet k acc = none := by rw [← hk]; exact hg
        rw [ih]
        rw [mapGet_mapSet, if_pos hk, hgk]
        rfl
      | some ex =>
        dsimp only
        have hgk : mapGet k acc = some ex := by rw [← hk]; exact hg
        by_cases hs : scoreEntity ex < scoreEntity e
        · rw [if_pos hs, ih, mapGet_mapSet, if_pos hk, hgk]
          simp [updStep, bestStep, hs]
        · rw [if_neg hs, ih, hgk]
          simp [updStep, bestStep, hs]
    · rw [List.filter_cons_of_neg (by simpa using hk)]
      cases hg : mapGet (entityKey e) acc with
      | none =>
        dsimp only
        rw [ih, mapGet_mapSet, if_neg hk]
      | some ex =>
        dsimp only
        by_cases hs : scoreEntity ex < scoreEntity e
        · rw [if_pos hs, ih, mapGet_mapSet, if_neg hk]
        · rw [if_neg hs, ih]

theorem mapValues_filter (k : String) :
    ∀ m : List (String × Entity), (m.map Prod.fst).Nodup → wellKeyed m →
      (m.map Prod.snd).filter (fun e => decide (entityKey e = k)) = (mapGet k m).toList := by
  intro m
  induction m with
  | nil => intro _ _; rfl
  | cons p rest ih =>
    obtain ⟨a, b⟩ := p
    intro hnd hwk
    have hab : entityKey b = a := hwk (a, b) (List.mem_cons_self _ _)
    have hnd2 : (rest.map Prod.fst).Nodup := (List.nodup_cons.mp hnd).2
    have hna : a ∉ rest.map Prod.fst := (List.nodup_cons.mp hnd).1
    have hwk2 : wellKeyed rest := fun q hq => hwk q (List.mem_cons_of_mem _ hq)
    by_cases hk : a = k
    · subst hk
      have hrest : (rest.map Prod.snd).filter (fun e => decide (entityKey e = a)) = [] := by
        refine List.filter_eq_nil_iff.mpr ?_
        intro e he
        obtain ⟨q, hq, hqe⟩ := List.mem_map.mp he
        have := hwk q (List.mem_cons_of_mem _ hq)
        subst hqe
        have hqa : q.1 ≠ a := fun hx => hna (hx ▸ List.mem_map_of_mem Prod.fst hq)
        simp [this, hqa]
      simp only [List.map_cons, mapGet, if_pos rfl]
      rw [List.filter_cons_of_pos (by simpa using hab), hrest]
      rfl
    · have hbk : entityKey b ≠ k := by rw [hab]; exact hk
      simp only [List.map_cons, mapGet, if_neg hk]
      rw [List.filter_cons_of_neg (by simpa using hbk)]
      exact ih hnd2 hwk2

theorem foldl_updStep_some :
    ∀ (t : List Entity) (b : Entity), t.foldl updStep (some b) = some (foldBest b t) := by
  intro t
  induction t with
  | nil => intro b; rfl
  | cons x t2 ih => intro b; exact ih (bestStep b x)

theorem firstMax_step (a x : Entity) (t : List Entity) :
    firstMaxEntity (a :: x :: t) = firstMaxEntity (bestStep a x :: t) := by
  by_cases hlt : scoreEntity a < scoreEntity x
  · have hb : bestStep a x = x := if_pos hlt
    rw [hb]
    have hfun : maxPred (a :: x :: t) = maxPred (x :: t) := by
      funext e
      simp only [maxPred, List.all_cons]
      by_cases hxe : scoreEntity x ≤ scoreEntity e
      · have hae : scoreEntity a ≤ scoreEntity e := le_trans (le_of_lt hlt) hxe
        simp [hae]
      · simp [hxe]
    unfold firstMaxEntity
    rw [hfun]
    have hpa : maxPred (x :: t) a = false := by
      simp only [maxPred, List.all_cons]
      simp [Nat.not_le.mpr hlt]
    rw [List.find?_cons_of_neg _ (by simp [hpa])]
  · have hxa : scoreEntity x ≤ scoreEntity a := Nat.le_of_not_lt hlt
    have hb : bestStep a x = a := if_neg hlt
    rw [hb]
    have hfun : maxPred (a :: x :: t) = maxPred (a :: t) := by
      funext e
      simp only [maxPred, List.all_cons]
      by_cases hae : scoreEntity a ≤ scoreEntity e
      · have hxe : scoreEntity x ≤ scoreEntity e := le_trans hxa hae
        simp [hxe]
      · simp [hae]
    unfold firstMaxEntity
    rw [hfun]
    cases hpa : maxPred (a :: t) a with
    | true =>
      rw [List.find?_cons_of_pos _ (by simp [hpa]), List.find?_cons_of_pos _ (by simp [hpa])]
    | false =>
      have hpx : maxPred (a :: t) x = false := by
        by_cases hax : scoreEntity a ≤ scoreEntity x
        · have hsc : scoreEntity x = scoreEntity a := Nat.le_antisymm hxa hax
          simp only [maxPred, List.all_cons] at hpa ⊢
          rw [hsc]
          exact hpa
        · simp only [maxPred, List.all_cons]
          simp [hax]
      rw [List.find?_cons_of_neg _ (by simp [hpa]),
        List.find?_cons_of_neg _ (by simp [hpx]),
        List.find?_cons_of_neg _ (by simp [hpa])]

theorem firstMax_cons : ∀ (t : List Entity) (a : Entity),
    firstMaxEntity (a :: t) = some (foldBest a t) := by
  intro t
  induction t with
  | nil =>
    intro a
    simp [firstMaxEntity, maxPred, List.find?, foldBest]
  | cons x t2 ih =>
    intro a
    rw [firstMax_step]
    exact ih (bestStep a x)

theorem foldl_updStep_none :
    ∀ l : List Entity, l.foldl updStep none = firstMaxEntity l := by
  intro l
  cases l with
  | nil => rfl
  | cons a t =>
    rw [firstMax_cons]
    exact foldl_updStep_some t a

/-- C5: dedupeEntities keeps at most one entity per key, namely the first
candidate of maximal score among those sharing the key (score = confidence
tier plus link bonus, ties resolved toward the first-seen candidate); and
two link candidates with the same resolved URL and id but different
visible text dedupe to exactly one entity of high confidence. -/
theorem C5_dedupe_first_max :
    (∀ (cands : List Entity) (k : String),
      (dedupeEntities cands).filter (fun e => decide (entityKey e = k)) =
        (firstMaxEntity (cands.filter (fun e => decide (entityKey e = k)))).toList) ∧
      dedupeEntities (scanLinks anchorsTwoSameUrl) =
        [⟨"scp-173", .scp, .link, some "https://scp-wiki.wikidot.com/scp-173",
          some "SCP-173", .high⟩] := by
  constructor
  · intro cands k
    have h1 : dedupeEntities cands = (dedupeGo [] cands).map Prod.snd := rfl
    rw [h1,
      mapValues_filter k _ (dedupeGo_nodup cands [] (by simp))
        (dedupeGo_wellKeyed cands [] (by intro p hp; cases hp)),
      dedupeGo_mapGet k cands []]
    have h2 : mapGet k ([] : List (String × Entity)) = none := rfl
    rw [h2, foldl_updStep_none]
  · decide

end SCPD
